import Mathlib

/-!
Shallow embedding of the real-time frame pipeline of `jalinga.py`
(video decode worker, session controller with A/V sync, screen/window
capture worker), together with proofs of the pipeline's stated
properties.  Machine floats of the source are modelled as rationals,
frames by their integer index, and Qt signal emissions as explicit
event lists.
-/

namespace Jalinga

/-- Events emitted by the video worker through its Qt signals:
`frame_ready` carries the decoded frame (identified by its index),
`position_changed` carries the current frame index. -/
inductive VEvent where
  | frameReady (idx : Int)
  | positionChanged (idx : Int)
deriving DecidableEq

/-- The mutable state of `VideoWorker` that the processing loop reads and
writes.  `capPos` is the position of the underlying `cv2.VideoCapture`
(the index the next `read()` returns); `buffer` is the contents of
`frame_buffer` (oldest first); times are rationals standing for
`time.perf_counter()` seconds. -/
structure WorkerState where
  capPos : Int
  totalFrames : Int
  currentFrame : Int
  buffer : List Int
  seekRequested : Bool
  seekFrame : Int
  playing : Bool
  nextFrameTime : ℚ
  frameDuration : ℚ
deriving DecidableEq

/-- `VideoWorker.seek`: record the pending seek target.  A single pair of
fields holds the request, so a later call overwrites an earlier one. -/
def workerSeek (s : WorkerState) (f : Int) : WorkerState :=
  { s with seekRequested := true, seekFrame := f }

/-- A sequence of `VideoWorker.seek` calls arriving before the producer
loop services the request. -/
def applySeeks (s : WorkerState) (reqs : List Int) : WorkerState :=
  reqs.foldl workerSeek s

/-- Outcome of one `cap.read()` (or the statements around it) as seen by
one iteration of `process_video`: a successful decode, a `ret == False`
soft failure, or a raised exception. -/
inductive ReadOutcome where
  | success
  | failure
  | exn
deriving DecidableEq

/-- The environment of one loop iteration: the current clock value and
how the decode attempt behaves. -/
structure Env where
  now : ℚ
  read : ReadOutcome
deriving DecidableEq

/-- `MAX_ERRORS` in `process_video`. -/
def MAX_ERRORS : Nat := 3

/-- `RECOVERY_DELAY` in `process_video` (seconds). -/
def RECOVERY_DELAY : ℚ := 1/2

/-- State of one run of `process_video`: the worker state plus the
loop-local `error_count`, whether the loop was left through `break`
(`halted`), how many times the too-many-errors message was emitted, and
the recovery sleeps inserted so far. -/
structure LoopState where
  w : WorkerState
  errorCount : Nat
  halted : Bool
  exhaustedEmitted : Nat
  recoverySleeps : List ℚ
deriving DecidableEq

/-- The error path shared by a failed read and a raised exception in the
playing branch of `process_video`: bump `error_count`; at `MAX_ERRORS`
print the message once, stop playing and break out of the loop;
otherwise sleep `RECOVERY_DELAY` before the next attempt. -/
def failStep (s : LoopState) : LoopState × List VEvent :=
  if MAX_ERRORS ≤ s.errorCount + 1 then
    ({ s with w := { s.w with playing := false },
              errorCount := s.errorCount + 1,
              halted := true,
              exhaustedEmitted := s.exhaustedEmitted + 1 }, [])
  else
    ({ s with errorCount := s.errorCount + 1,
              recoverySleeps := s.recoverySleeps ++ [RECOVERY_DELAY] }, [])

/-- One iteration of the `while self.running` loop of
`VideoWorker.process_video`.  The seek branch repositions the capture,
sets `current_frame`, clears the buffer, reads one frame and, on
success, emits it, resets `error_count` and the pacing reference, then
clears `seek_requested`.  The playing branch reads the next frame when
the due time has elapsed, advances `current_frame`, sets the next due
time to `now + frame_duration`, and wraps to a paused position 0 at end
of stream; decode failures go through `failStep`.  A halted loop does
nothing. -/
def step (e : Env) (s : LoopState) : LoopState × List VEvent :=
  if s.halted then (s, [])
  else if s.w.seekRequested then
    match e.read with
    | ReadOutcome.exn =>
        let w1 : WorkerState := { s.w with
          capPos := s.w.seekFrame,
          currentFrame := s.w.seekFrame,
          buffer := [] }
        failStep { s with w := w1 }
    | r =>
        let w1 : WorkerState := { s.w with
          capPos := s.w.seekFrame,
          currentFrame := s.w.seekFrame,
          buffer := [] }
        if r = ReadOutcome.success ∧ (0 : Int) ≤ w1.capPos ∧ w1.capPos < w1.totalFrames then
          let f := w1.capPos
          ({ s with
              w := { w1 with
                capPos := f + 1,
                nextFrameTime := e.now,
                seekRequested := false },
              errorCount := 0 },
           [VEvent.frameReady f, VEvent.positionChanged f])
        else
          ({ s with w := { w1 with seekRequested := false } }, [])
  else if s.w.playing then
    if s.w.nextFrameTime ≤ e.now then
      match e.read with
      | ReadOutcome.success =>
          if (0 : Int) ≤ s.w.capPos ∧ s.w.capPos < s.w.totalFrames then
            let f := s.w.capPos
            let cur := s.w.currentFrame + 1
            let w1 : WorkerState := { s.w with
              capPos := f + 1,
              currentFrame := cur,
              nextFrameTime := e.now + s.w.frameDuration }
            let w2 : WorkerState := if w1.totalFrames ≤ w1.currentFrame then
                        { w1 with currentFrame := 0, capPos := 0, playing := false }
                      else w1
            ({ s with w := w2, errorCount := 0 },
             [VEvent.frameReady f, VEvent.positionChanged cur])
          else failStep s
      | _ => failStep s
    else (s, [])
  else (s, [])

/-- Iterating `step` over a list of environments, collecting emissions. -/
def runLoop : List Env → LoopState → LoopState × List VEvent
  | [], s => (s, [])
  | e :: es, s =>
      let p := step e s
      let q := runLoop es p.1
      (q.1, p.2 ++ q.2)

/-! ### Helper lemmas about the worker loop -/

theorem applySeeks_cons (s : WorkerState) (r : Int) (rs : List Int) :
    applySeeks s (r :: rs) = applySeeks (workerSeek s r) rs := rfl

theorem workerSeek_totalFrames (s : WorkerState) (r : Int) :
    (workerSeek s r).totalFrames = s.totalFrames := rfl

theorem applySeeks_totalFrames (s : WorkerState) (reqs : List Int) :
    (applySeeks s reqs).totalFrames = s.totalFrames := by
  induction reqs generalizing s with
  | nil => rfl
  | cons r rs ih => rw [applySeeks_cons, ih, workerSeek_totalFrames]

theorem applySeeks_last (s : WorkerState) (reqs : List Int) (h : reqs ≠ []) :
    (applySeeks s reqs).seekFrame = reqs.getLast h ∧
    (applySeeks s reqs).seekRequested = true := by
  induction reqs generalizing s with
  | nil => exact absurd rfl h
  | cons r rs ih =>
    cases rs with
    | nil => simp [applySeeks, workerSeek]
    | cons r2 rs2 =>
      rw [applySeeks_cons, List.getLast_cons (List.cons_ne_nil r2 rs2)]
      exact ih (workerSeek s r) (List.cons_ne_nil r2 rs2)

/-- Full characterization of one loop iteration that services a pending
seek whose target is a valid frame index and whose read succeeds. -/
theorem step_seek (s : LoopState) (e : Env)
    (hh : s.halted = false) (hreq : s.w.seekRequested = true)
    (h0 : 0 ≤ s.w.seekFrame) (hlt : s.w.seekFrame < s.w.totalFrames)
    (hr : e.read = ReadOutcome.success) :
    step e s =
      ({ s with
          w := { s.w with
            capPos := s.w.seekFrame + 1,
            currentFrame := s.w.seekFrame,
            buffer := [],
            nextFrameTime := e.now,
            seekRequested := false },
          errorCount := 0 },
       [VEvent.frameReady s.w.seekFrame, VEvent.positionChanged s.w.seekFrame]) := by
  simp [step, hh, hreq, hr, h0, hlt]

/-- C2: for a valid seek target f in [0, total_frames-1], servicing the
pending seek sets the current frame index to f, clears the buffered
frames, delivers exactly the one frame f (followed by its position
event), repositions the decoder past f, resets the pacing reference
time to now, and clears the pending-seek flag. -/
theorem seek_executes_to_target (s : LoopState) (e : Env) (f : Int)
    (hh : s.halted = false) (hreq : s.w.seekRequested = true)
    (hf : s.w.seekFrame = f) (h0 : 0 ≤ f) (hlt : f < s.w.totalFrames)
    (hr : e.read = ReadOutcome.success) :
    (step e s).1.w.currentFrame = f ∧
    (step e s).1.w.buffer = [] ∧
    (step e s).1.w.seekRequested = false ∧
    (step e s).1.w.nextFrameTime = e.now ∧
    (step e s).1.w.capPos = f + 1 ∧
    (step e s).2 = [VEvent.frameReady f, VEvent.positionChanged f] := by
  subst hf
  rw [step_seek s e hh hreq h0 hlt hr]
  exact ⟨rfl, rfl, rfl, rfl, rfl, rfl⟩

/-- A concrete worker state with a pending seek to frame 5 of a
10-frame video. -/
def wSeek5 : WorkerState :=
  ⟨0, 10, 0, [3], true, 5, false, 0, 1/30⟩

/-- The loop state wrapping `wSeek5` at the start of `process_video`. -/
def lsSeek5 : LoopState := ⟨wSeek5, 0, false, 0, []⟩

/-- Witness for C2: seeking to frame 5 of a 10-frame video delivers
exactly frame 5 and resets the loop state accordingly. -/
theorem seek_executes_to_target_witness :
    (step ⟨100, ReadOutcome.success⟩ lsSeek5).1.w.currentFrame = 5 ∧
    (step ⟨100, ReadOutcome.success⟩ lsSeek5).1.w.buffer = [] ∧
    (step ⟨100, ReadOutcome.success⟩ lsSeek5).1.w.seekRequested = false ∧
    (step ⟨100, ReadOutcome.success⟩ lsSeek5).1.w.nextFrameTime = 100 ∧
    (step ⟨100, ReadOutcome.success⟩ lsSeek5).1.w.capPos = 5 + 1 ∧
    (step ⟨100, ReadOutcome.success⟩ lsSeek5).2 =
      [VEvent.frameReady 5, VEvent.positionChanged 5] :=
  seek_executes_to_target lsSeek5 ⟨100, ReadOutcome.success⟩ 5
    rfl rfl rfl (by decide) (by decide) rfl

/-- A concrete playing worker state: due time 10, frame period 1, decode
position 2 of 10 frames. -/
def wPacing : WorkerState :=
  ⟨2, 10, 2, [], false, 0, true, 10, 1⟩

/-- The loop state wrapping `wPacing`. -/
def lsPacing : LoopState := ⟨wPacing, 0, false, 0, []⟩

/-- C5 counterexample: a successful paced step observed at time 12 with
previous due time 10 and period 1 schedules the next frame at
12 + 1 = 13 (current time plus one period), not at the drift-free
10 + 1 = 11 the claim asserts. -/
theorem pacing_drift_counterexample :
    (step ⟨12, ReadOutcome.success⟩ lsPacing).1.w.nextFrameTime = 13 ∧
    lsPacing.w.nextFrameTime + lsPacing.w.frameDuration = 11 ∧
    (13 : ℚ) ≠ 11 := by
  refine ⟨?_, by norm_num [lsPacing, wPacing], by norm_num⟩
  simp only [step, lsPacing, wPacing]
  norm_num

/-- C5 (amended): on every successful paced production step the next due
time is set to the current time plus one frame period (`now + period`),
so scheduling latency is absorbed into the schedule rather than
corrected. -/
theorem pacing_sets_now_plus_period (s : LoopState) (e : Env)
    (hh : s.halted = false) (hreq : s.w.seekRequested = false)
    (hp : s.w.playing = true) (hdue : s.w.nextFrameTime ≤ e.now)
    (hr : e.read = ReadOutcome.success)
    (h0 : 0 ≤ s.w.capPos) (hlt : s.w.capPos < s.w.totalFrames) :
    (step e s).1.w.nextFrameTime = e.now + s.w.frameDuration := by
  simp only [step, hh, hreq, hp, hdue, hr, h0, hlt]
  simp [h0, hlt, hdue]
  split <;> rfl

/-- Witness for the amended C5 at the concrete pacing state. -/
theorem pacing_sets_now_plus_period_witness :
    (step ⟨12, ReadOutcome.success⟩ lsPacing).1.w.nextFrameTime =
      12 + lsPacing.w.frameDuration :=
  pacing_sets_now_plus_period lsPacing ⟨12, ReadOutcome.success⟩
    rfl rfl rfl (by decide) rfl (by decide) (by decide)

/-- C6: a later `VideoWorker.seek` call overwrites the single pending
target (last-write-wins), so after any nonempty burst of seek requests
the pending target is exactly the last one issued, and the iteration
that services it delivers only that target's frame — no superseded
intermediate target is ever delivered. -/
theorem seek_coalescing (s : WorkerState) (reqs : List Int) (h : reqs ≠ []) :
    (applySeeks s reqs).seekFrame = reqs.getLast h ∧
    (applySeeks s reqs).seekRequested = true ∧
    (∀ (e : Env) (ls : LoopState),
      ls.w = applySeeks s reqs → ls.halted = false →
      e.read = ReadOutcome.success → 0 ≤ reqs.getLast h →
      reqs.getLast h < s.totalFrames →
      (step e ls).2 = [VEvent.frameReady (reqs.getLast h),
                       VEvent.positionChanged (reqs.getLast h)]) := by
  obtain ⟨hframe, hflag⟩ := applySeeks_last s reqs h
  refine ⟨hframe, hflag, ?_⟩
  intro e ls hw hh hr hge hlast
  have hreq : ls.w.seekRequested = true := by rw [hw]; exact hflag
  have hsf : ls.w.seekFrame = reqs.getLast h := by rw [hw]; exact hframe
  have h0 : 0 ≤ ls.w.seekFrame := by rw [hsf]; exact hge
  have hlt : ls.w.seekFrame < ls.w.totalFrames := by
    rw [hsf, hw, applySeeks_totalFrames]; exact hlast
  rw [step_seek ls e hh hreq h0 hlt hr, hsf]

/-- Witness for C6: the burst seek(3), seek(9), seek(5) leaves pending
target 5 and servicing it delivers only frame 5. -/
theorem seek_coalescing_witness :
    (applySeeks wPacing [3, 9, 5]).seekFrame = 5 ∧
    (applySeeks wPacing [3, 9, 5]).seekRequested = true ∧
    (step ⟨50, ReadOutcome.success⟩ ⟨applySeeks wPacing [3, 9, 5], 0, false, 0, []⟩).2 =
      [VEvent.frameReady 5, VEvent.positionChanged 5] := by
  have h := seek_coalescing wPacing [3, 9, 5] (by decide)
  have hlast : ([3, 9, 5] : List Int).getLast (by decide) = 5 := by decide
  refine ⟨by rw [h.1, hlast], h.2.1, ?_⟩
  have := h.2.2 ⟨50, ReadOutcome.success⟩
    ⟨applySeeks wPacing [3, 9, 5], 0, false, 0, []⟩ rfl rfl rfl
    (by rw [hlast]; decide) (by rw [hlast]; decide)
  rw [this, hlast]

/-! ### Error policy (C4) -/

theorem step_halted (e : Env) (s : LoopState) (h : s.halted = true) :
    step e s = (s, []) := by
  simp [step, h]

theorem runLoop_halted (envs : List Env) (s : LoopState) (h : s.halted = true) :
    runLoop envs s = (s, []) := by
  induction envs with
  | nil => rfl
  | cons e es ih => simp [runLoop, step_halted e s h, ih]

/-- The invariant of `process_video`'s error accounting: until the loop
breaks the message was never printed and the counter stays below
`MAX_ERRORS`; once it breaks the message was printed exactly once and
playback is off. -/
def ErrInv (s : LoopState) : Prop :=
  (s.halted = false → s.exhaustedEmitted = 0 ∧ s.errorCount + 1 ≤ MAX_ERRORS) ∧
  (s.halted = true → s.exhaustedEmitted = 1 ∧ s.w.playing = false)

theorem ErrInv.onFail {s : LoopState} (h : ErrInv s) (hh : s.halted = false) :
    ErrInv (failStep s).1 := by
  obtain ⟨he, _⟩ := h.1 hh
  unfold failStep
  by_cases h3 : MAX_ERRORS ≤ s.errorCount + 1
  · rw [if_pos h3]
    exact ⟨fun hf => absurd hf (by simp), fun _ => ⟨by rw [he], rfl⟩⟩
  · rw [if_neg h3]
    refine ⟨fun _ => ⟨he, show s.errorCount + 1 + 1 ≤ MAX_ERRORS by omega⟩,
      fun ht => absurd ht (by simp [hh])⟩

theorem ErrInv.onStep (e : Env) {s : LoopState} (h : ErrInv s) :
    ErrInv (step e s).1 := by
  by_cases hh : s.halted = true
  · rw [step_halted e s hh]; exact h
  · have hh2 : s.halted = false := by revert hh; cases s.halted <;> simp
    have hvac : ∀ t : LoopState, t.halted = false →
        (t.halted = true → t.exhaustedEmitted = 1 ∧ t.w.playing = false) := by
      intro t ht hcontra
      rw [ht] at hcontra
      exact absurd hcontra (by simp)
    have hle : (0 : ℕ) + 1 ≤ MAX_ERRORS := by norm_num [MAX_ERRORS]
    by_cases hseek : s.w.seekRequested = true
    · rcases hrd : e.read with _ | _ | _
      · simp only [step, hh2, hseek, hrd, Bool.false_eq_true, if_false, if_true]
        split
        · exact ⟨fun _ => ⟨(h.1 hh2).1, hle⟩, hvac _ rfl⟩
        · exact ⟨fun _ => h.1 hh2, hvac _ rfl⟩
      · simp only [step, hh2, hseek, hrd, Bool.false_eq_true, if_false, if_true]
        split
        · exact ⟨fun _ => ⟨(h.1 hh2).1, hle⟩, hvac _ rfl⟩
        · exact ⟨fun _ => h.1 hh2, hvac _ rfl⟩
      · simp only [step, hh2, hseek, hrd, Bool.false_eq_true, if_false, if_true]
        exact ErrInv.onFail ⟨fun _ => h.1 hh2, hvac _ rfl⟩ rfl
    · have hseek2 : s.w.seekRequested = false := by
        revert hseek; cases s.w.seekRequested <;> simp
      by_cases hp : s.w.playing = true
      · by_cases hdue : s.w.nextFrameTime ≤ e.now
        · rcases hrd : e.read with _ | _ | _
          · simp only [step, hh2, hseek2, hp, hdue, hrd, Bool.false_eq_true,
              if_false, if_true]
            split
            · exact ⟨fun _ => ⟨(h.1 hh2).1, hle⟩, hvac _ rfl⟩
            · exact ErrInv.onFail h hh2
          · simp only [step, hh2, hseek2, hp, hdue, hrd, Bool.false_eq_true,
              if_false, if_true]
            exact ErrInv.onFail h hh2
          · simp only [step, hh2, hseek2, hp, hdue, hrd, Bool.false_eq_true,
              if_false, if_true]
            exact ErrInv.onFail h hh2
        · simp only [step, hh2, hseek2, hp, hdue, Bool.false_eq_true, if_false,
            if_true]
          exact h
      · have hp2 : s.w.playing = false := by
          revert hp; cases s.w.playing <;> simp
        simp only [step, hh2, hseek2, hp2, Bool.false_eq_true, if_false]
        exact h

theorem ErrInv.onRun (envs : List Env) {s : LoopState} (h : ErrInv s) :
    ErrInv (runLoop envs s).1 := by
  induction envs generalizing s with
  | nil => exact h
  | cons e es ih => exact ih (ErrInv.onStep e h)

/-- C4: starting a production run with a zeroed error counter, (a) the
exhausted-retries message is emitted at most once however the run goes;
(b) if the run halted then playback is off, the message was emitted
exactly once, and any further iterations change nothing and emit
nothing; (c) a successful paced production resets the counter to 0; and
(d) a production exception below the threshold increments the counter,
inserts one `RECOVERY_DELAY` (0.5 s) sleep before the next attempt, and
does not halt. -/
theorem error_policy (envs extra : List Env) (s0 : LoopState)
    (hc : s0.errorCount = 0) (hh : s0.halted = false)
    (he : s0.exhaustedEmitted = 0) :
    ((runLoop envs s0).1.exhaustedEmitted ≤ 1) ∧
    ((runLoop envs s0).1.halted = true →
      (runLoop envs s0).1.w.playing = false ∧
      (runLoop envs s0).1.exhaustedEmitted = 1 ∧
      runLoop extra (runLoop envs s0).1 = ((runLoop envs s0).1, [])) ∧
    (∀ (e : Env) (s1 : LoopState), s1.halted = false →
      s1.w.seekRequested = false → s1.w.playing = true →
      s1.w.nextFrameTime ≤ e.now → e.read = ReadOutcome.success →
      0 ≤ s1.w.capPos → s1.w.capPos < s1.w.totalFrames →
      (step e s1).1.errorCount = 0) ∧
    (∀ (e : Env) (s1 : LoopState), s1.halted = false →
      s1.w.seekRequested = false → s1.w.playing = true →
      s1.w.nextFrameTime ≤ e.now → e.read = ReadOutcome.exn →
      s1.errorCount + 1 < MAX_ERRORS →
      (step e s1).1.errorCount = s1.errorCount + 1 ∧
      (step e s1).1.recoverySleeps = s1.recoverySleeps ++ [RECOVERY_DELAY] ∧
      (step e s1).1.halted = false) := by
  have hinv0 : ErrInv s0 :=
    ⟨fun _ => ⟨he, by rw [hc]; norm_num [MAX_ERRORS]⟩,
     fun ht => absurd ht (by simp [hh])⟩
  have hinv := ErrInv.onRun envs hinv0
  refine ⟨?_, ?_, ?_, ?_⟩
  · rcases hhr : (runLoop envs s0).1.halted with _ | _
    · have h0 := (hinv.1 hhr).1
      omega
    · have h1 := (hinv.2 hhr).1
      omega
  · intro hhr
    exact ⟨(hinv.2 hhr).2, (hinv.2 hhr).1, runLoop_halted extra _ hhr⟩
  · intro e s1 h1 h2 h3 h4 h5 h6 h7
    simp only [step, h1, h2, h3, h4, h5, Bool.false_eq_true, if_false, if_true]
    rw [if_pos ⟨h6, h7⟩]
  · intro e s1 h1 h2 h3 h4 h5 h6
    have hn : ¬ MAX_ERRORS ≤ s1.errorCount + 1 := by omega
    simp only [step, h1, h2, h3, h4, h5, Bool.false_eq_true, if_false, if_true]
    unfold failStep
    rw [if_neg hn]
    exact ⟨rfl, rfl, h1⟩

/-- A playing worker about to fail: due time 0, so every iteration
attempts production. -/
def wFail : WorkerState := ⟨0, 10, 0, [], false, 0, true, 0, 1⟩

/-- Fresh loop state around `wFail`. -/
def lsFail : LoopState := ⟨wFail, 0, false, 0, []⟩

/-- Three consecutive production exceptions. -/
def envsFail : List Env :=
  [⟨1, ReadOutcome.exn⟩, ⟨2, ReadOutcome.exn⟩, ⟨3, ReadOutcome.exn⟩]

/-- Witness for C4: after three consecutive exceptions the loop is
halted with playback off, the exhausted-retries message was emitted
exactly once, and one further failing iteration changes nothing and
emits nothing. -/
theorem error_policy_witness :
    (runLoop envsFail lsFail).1.w.playing = false ∧
    (runLoop envsFail lsFail).1.exhaustedEmitted = 1 ∧
    runLoop [⟨4, ReadOutcome.exn⟩] (runLoop envsFail lsFail).1 =
      ((runLoop envsFail lsFail).1, []) := by
  have h := error_policy envsFail [⟨4, ReadOutcome.exn⟩] lsFail rfl rfl rfl
  exact h.2.1 (by decide)

/-! ### Frame channel (C7) -/

/-- `MAX_FRAME_BUFFER_SIZE`, the video worker's `queue.Queue` capacity. -/
def MAX_FRAME_BUFFER_SIZE : Nat := 5

/-- The capture worker's `queue.Queue(maxsize=2)` capacity. -/
def CAPTURE_BUFFER_SIZE : Nat := 2

/-- A `queue.Queue(maxsize=n)` holding frames, oldest first. -/
structure FrameChannel where
  maxsize : Nat
  items : List Int
deriving DecidableEq

/-- Result of a non-blocking put on a `queue.Queue`. -/
inductive PutResult where
  | ok (c : FrameChannel)
  | fullError
deriving DecidableEq

/-- `queue.Queue.put_nowait`: when the queue is full (positive `maxsize`
reached) it raises `queue.Full` and leaves the queue unchanged;
otherwise it appends the new item at the tail. -/
def putNowait (c : FrameChannel) (x : Int) : PutResult :=
  if 0 < c.maxsize ∧ c.maxsize ≤ c.items.length then PutResult.fullError
  else PutResult.ok { c with items := c.items ++ [x] }

/-- The `frame_buffer.queue.clear()` call of the seek handler. -/
def clearChannel (c : FrameChannel) : FrameChannel := { c with items := [] }

/-- C7 counterexample: pushing frame 30 into the full 2-capacity channel
[10, 20] raises `queue.Full` and keeps the channel unchanged — it does
not drop the oldest frame 10 and keep the newest 30. -/
theorem channel_drop_oldest_counterexample :
    putNowait ⟨2, [10, 20]⟩ 30 = PutResult.fullError ∧
    putNowait ⟨2, [10, 20]⟩ 30 ≠ PutResult.ok ⟨2, [20, 30]⟩ := by
  refine ⟨by decide, by decide⟩

theorem step_buffer (e : Env) (s : LoopState) :
    (step e s).1.w.buffer = s.w.buffer ∨ (step e s).1.w.buffer = [] := by
  obtain ⟨now, rd⟩ := e
  unfold step failStep
  rcases rd <;> (repeat' split) <;> (try simp_all) <;>
    (try (split <;> simp_all))

/-- C7 (amended): the frame buffer is a bounded `queue.Queue` (capacity
5 for the video worker, 2 for the capture worker) and a non-blocking
put never grows it past its capacity; but a put into a full channel
raises `queue.Full`, rejecting the newest frame and keeping the
buffered ones — and the producer loop itself never pushes into the
buffer at all (every iteration leaves it unchanged or clears it), so
the channel never exceeds its capacity and the producer never blocks. -/
theorem channel_bounded (c : FrameChannel) (x : Int)
    (hcap : c.items.length ≤ c.maxsize) (hpos : 0 < c.maxsize) :
    (∀ c2, putNowait c x = PutResult.ok c2 →
      c2.items.length ≤ c.maxsize ∧ c2.maxsize = c.maxsize) ∧
    (c.items.length = c.maxsize → putNowait c x = PutResult.fullError) ∧
    (∀ (e : Env) (ls : LoopState),
      (step e ls).1.w.buffer.length ≤ max ls.w.buffer.length 0) := by
  refine ⟨?_, ?_, ?_⟩
  · intro c2 h2
    unfold putNowait at h2
    by_cases hfull : 0 < c.maxsize ∧ c.maxsize ≤ c.items.length
    · rw [if_pos hfull] at h2
      exact absurd h2 (by simp)
    · rw [if_neg hfull] at h2
      have hlen : c.items.length < c.maxsize := by
        rcases Nat.lt_or_ge c.items.length c.maxsize with h | h
        · exact h
        · exact absurd ⟨hpos, h⟩ hfull
      cases h2
      constructor
      · simpa using hlen
      · rfl
  · intro hfull2
    unfold putNowait
    rw [if_pos ⟨hpos, le_of_eq hfull2.symm⟩]
  · intro e ls
    rcases step_buffer e ls with h | h
    · rw [h]; exact le_max_left _ _
    · rw [h]; simp

/-- Witness for the amended C7 on the video worker's 5-capacity queue
holding 4 frames, and on a loop iteration from the concrete seek
state. -/
theorem channel_bounded_witness :
    (∀ c2, putNowait ⟨MAX_FRAME_BUFFER_SIZE, [1, 2, 3, 4]⟩ 9 = PutResult.ok c2 →
      c2.items.length ≤ MAX_FRAME_BUFFER_SIZE ∧ c2.maxsize = MAX_FRAME_BUFFER_SIZE) ∧
    ([1, 2, 3, 4].length = MAX_FRAME_BUFFER_SIZE →
      putNowait ⟨MAX_FRAME_BUFFER_SIZE, [1, 2, 3, 4]⟩ 9 = PutResult.fullError) ∧
    (∀ (e : Env) (ls : LoopState),
      (step e ls).1.w.buffer.length ≤ max ls.w.buffer.length 0) :=
  channel_bounded ⟨MAX_FRAME_BUFFER_SIZE, [1, 2, 3, 4]⟩ 9
    (by decide) (by decide)

/-! ### A/V synchronization decision (C3) -/

/-- `seek_threshold` of `UploadedVideo` (frames). -/
def SEEK_THRESHOLD : Int := 1

/-- `UploadedVideo.on_media_position_changed` (the guard and conversion
are identical in `sync_video_position`): when the slider is not being
dragged and the media duration is positive, convert the audio position
to a frame index with `int(position / duration * frame_count)`
(truncation; equal to the rational floor for the nonnegative positions
and counts the player reports) and call `worker.seek(frame)` iff
`|frame - current_frame| >= seek_threshold`.  Returns the seek target
issued, if any. -/
def onMediaPositionChanged (sliderBeingDragged : Bool) (currentFrame : Int)
    (position duration frameCount : Int) : Option Int :=
  if sliderBeingDragged = false ∧ 0 < duration then
    let frame : Int := ⌊(position : ℚ) / (duration : ℚ) * (frameCount : ℚ)⌋
    if SEEK_THRESHOLD ≤ |frame - currentFrame| then some frame else none
  else none

theorem floor_mul_div (p d N : Int) (hd : 0 < d) :
    ⌊(p : ℚ) / (d : ℚ) * (N : ℚ)⌋ = p * N / d := by
  have hdq : ((d.toNat : ℕ) : ℚ) = (d : ℚ) := by
    exact_mod_cast Int.toNat_of_nonneg hd.le
  have h1 : (p : ℚ) / (d : ℚ) * (N : ℚ) = ((p * N : ℤ) : ℚ) / ((d.toNat : ℕ) : ℚ) := by
    rw [hdq]
    push_cast
    ring
  rw [h1, Rat.floor_intCast_div_natCast, Int.toNat_of_nonneg hd.le]

theorem onMediaPositionChanged_eq (cur p d N : Int) (hd : 0 < d) :
    onMediaPositionChanged false cur p d N =
      if (1 : Int) ≤ |p * N / d - cur| then some (p * N / d) else none := by
  unfold onMediaPositionChanged SEEK_THRESHOLD
  rw [if_pos ⟨rfl, hd⟩, floor_mul_div p d N hd]

/-- C3 counterexample: with 100 total frames and duration 1000 ms, the
audio report at position 10 converts exactly to frame 1; with the
decode position at 0 the difference is exactly 1, and the code issues a
corrective seek even though the claim (strictly-more-than-1 threshold
on the rounded conversion) says none may be issued.  At position 17
(1.7 frames: the code truncates to 1, the claim rounds to 2) and
decode position 3 the code again seeks where the claim forbids it. -/
theorem av_sync_counterexample :
    (onMediaPositionChanged false 0 10 1000 100).isSome = true ∧
    ¬(1 < |(0 : Int) - round (((10 : ℚ) / 1000) * 100)|) ∧
    (onMediaPositionChanged false 3 17 1000 100).isSome = true ∧
    ¬(1 < |(3 : Int) - round (((17 : ℚ) / 1000) * 100)|) := by
  have e1 : onMediaPositionChanged false 0 10 1000 100 =
      if (1 : Int) ≤ |10 * 100 / 1000 - 0| then some (10 * 100 / 1000) else none :=
    onMediaPositionChanged_eq 0 10 1000 100 (by decide)
  have e2 : onMediaPositionChanged false 3 17 1000 100 =
      if (1 : Int) ≤ |17 * 100 / 1000 - 3| then some (17 * 100 / 1000) else none :=
    onMediaPositionChanged_eq 3 17 1000 100 (by decide)
  have r1 : round (((10 : ℚ) / 1000) * 100) = 1 := by
    have : ((10 : ℚ) / 1000) * 100 = 1 := by norm_num
    rw [this, round_one]
  have r2 : round (((17 : ℚ) / 1000) * 100) = 2 := by
    have h17 : ((17 : ℚ) / 1000) * 100 + 1 / 2 = ((22 : ℤ) : ℚ) / ((10 : ℕ) : ℚ) := by
      norm_num
    rw [round_eq, h17, Rat.floor_intCast_div_natCast]
    decide
  refine ⟨?_, ?_, ?_, ?_⟩
  · rw [e1]; decide
  · rw [r1]; decide
  · rw [e2]; decide
  · rw [r2]; decide

/-- C3 (amended): the audio position is converted with truncating
arithmetic, `a = position * total_frames / duration` (integer floor
division, not rounding), and a corrective seek is issued iff
`|a - d| ≥ 1` — already at a one-frame difference, not only strictly
beyond it; the target issued is `a` itself. -/
theorem av_sync_decision (cur p d N : Int) (hd : 0 < d) :
    ((onMediaPositionChanged false cur p d N).isSome = true ↔
      1 ≤ |p * N / d - cur|) ∧
    (∀ t, onMediaPositionChanged false cur p d N = some t → t = p * N / d) := by
  rw [onMediaPositionChanged_eq cur p d N hd]
  constructor
  · by_cases hth : (1 : ℤ) ≤ |p * N / d - cur|
    · rw [if_pos hth]
      simpa using hth
    · rw [if_neg hth]
      simpa using hth
  · intro t ht
    by_cases hth : (1 : ℤ) ≤ |p * N / d - cur|
    · rw [if_pos hth] at ht
      exact (Option.some_inj.1 ht).symm
    · rw [if_neg hth] at ht
      cases ht

/-- Witness for the amended C3: a 100-frame video with duration
1000 ms, audio position 10 and decode position 0. -/
theorem av_sync_decision_witness :
    ((onMediaPositionChanged false 0 10 1000 100).isSome = true ↔
      1 ≤ |(10 : Int) * 100 / 1000 - 0|) ∧
    (∀ t, onMediaPositionChanged false 0 10 1000 100 = some t →
      t = 10 * 100 / 1000) :=
  av_sync_decision 0 10 1000 100 (by decide)

/-! ### Session-level seek (C8, C10) -/

/-- `seek_cooldown` of `UploadedVideo` (milliseconds). -/
def SEEK_COOLDOWN : ℚ := 50

/-- The session state touched by `UploadedVideo.seek`; times are in
milliseconds (`time.time() * 1000`). -/
structure Session where
  currentFrame : Int
  lastSeekTime : ℚ
  frameCount : Int
  fps : ℚ
  hasMediaPlayer : Bool
  mediaPos : Int
deriving DecidableEq

/-- How one `UploadedVideo.seek` call ends: dropped by the cooldown,
completed, or raised from `media_player.setPosition`. -/
inductive SeekOutcome where
  | dropped
  | ok
  | raised
deriving DecidableEq

/-- What one `UploadedVideo.seek` call did: the state afterwards, the
`worker.seek` calls it issued, and how it ended. -/
structure SeekResult where
  state : Session
  workerSeeks : List Int
  outcome : SeekOutcome
deriving DecidableEq

/-- `UploadedVideo.seek(frame)`: return immediately inside the cooldown
window; otherwise clamp the target to `[0, frame_count - 1]`, issue
`worker.seek`, then call `media_player.setPosition` — which raises
`AttributeError` when audio initialization failed and `media_player`
is `None`, so the `current_frame`/`last_seek_time` updates are skipped —
and finally record the new frame and seek time. -/
def sessionSeek (s : Session) (now : ℚ) (f : Int) : SeekResult :=
  if now - s.lastSeekTime < SEEK_COOLDOWN then ⟨s, [], SeekOutcome.dropped⟩
  else
    let f2 : Int := max 0 (min f (s.frameCount - 1))
    if s.hasMediaPlayer then
      let pos : Int := ⌊(f2 : ℚ) / s.fps * 1000⌋
      ⟨{ s with currentFrame := f2, lastSeekTime := now, mediaPos := pos },
       [f2], SeekOutcome.ok⟩
    else ⟨s, [f2], SeekOutcome.raised⟩

/-- C8: a session seek issued within the 50 ms cooldown of an executed
seek is dropped without any effect — no worker seek, no media position
change, no state update — so two calls 10 ms apart execute exactly one
seek, and the dropped request is not queued. -/
theorem seek_cooldown_drops (s : Session) (t1 t2 : ℚ) (f1 f2 : Int)
    (h1 : SEEK_COOLDOWN ≤ t1 - s.lastSeekTime)
    (hmp : s.hasMediaPlayer = true)
    (h2 : t2 - t1 < SEEK_COOLDOWN) :
    (sessionSeek s t1 f1).outcome = SeekOutcome.ok ∧
    (sessionSeek s t1 f1).workerSeeks = [max 0 (min f1 (s.frameCount - 1))] ∧
    (sessionSeek (sessionSeek s t1 f1).state t2 f2).outcome =
      SeekOutcome.dropped ∧
    (sessionSeek (sessionSeek s t1 f1).state t2 f2).state =
      (sessionSeek s t1 f1).state ∧
    (sessionSeek (sessionSeek s t1 f1).state t2 f2).workerSeeks = [] := by
  have hn1 : ¬ (t1 - s.lastSeekTime < SEEK_COOLDOWN) := not_lt.2 h1
  simp only [sessionSeek, hn1, hmp, h2, if_true, if_false, ite_true, ite_false]
  exact ⟨trivial, trivial, trivial, trivial, trivial⟩

/-- A live session: frame 0, last seek at time 0, 300 frames, 30 fps,
with its media player present. -/
def sess0 : Session := ⟨0, 0, 300, 30, true, 0⟩

/-- Witness for C8: seeks at t = 100 ms and t = 110 ms; the second is
dropped with no state change and no worker seek. -/
theorem seek_cooldown_drops_witness :
    (sessionSeek sess0 100 150).outcome = SeekOutcome.ok ∧
    (sessionSeek sess0 100 150).workerSeeks =
      [max 0 (min 150 (sess0.frameCount - 1))] ∧
    (sessionSeek (sessionSeek sess0 100 150).state 110 160).outcome =
      SeekOutcome.dropped ∧
    (sessionSeek (sessionSeek sess0 100 150).state 110 160).state =
      (sessionSeek sess0 100 150).state ∧
    (sessionSeek (sessionSeek sess0 100 150).state 110 160).workerSeeks = [] :=
  seek_cooldown_drops sess0 100 110 150 160
    (by norm_num [sess0, SEEK_COOLDOWN]) rfl (by norm_num [SEEK_COOLDOWN])

/-- C10: when audio initialization failed (`media_player is None`), a
session seek outside the cooldown window issues the worker seek and
then raises on `media_player.setPosition`, before `current_frame` and
`last_seek_time` are updated — the worker has sought but the session
state is untouched, so the seek is not atomic on this path. -/
theorem seek_raises_without_media_player (s : Session) (now : ℚ) (f : Int)
    (hmp : s.hasMediaPlayer = false)
    (h1 : SEEK_COOLDOWN ≤ now - s.lastSeekTime) :
    (sessionSeek s now f).outcome = SeekOutcome.raised ∧
    (sessionSeek s now f).workerSeeks = [max 0 (min f (s.frameCount - 1))] ∧
    (sessionSeek s now f).state = s := by
  have hn1 : ¬ (now - s.lastSeekTime < SEEK_COOLDOWN) := not_lt.2 h1
  simp only [sessionSeek, hn1, hmp, if_false, ite_false, Bool.false_eq_true]
  exact ⟨trivial, trivial, trivial⟩

/-- A session whose audio initialization failed: `media_player = None`. -/
def sessNoAudio : Session := ⟨0, 0, 300, 30, false, 0⟩

/-- Witness for C10 at t = 100 ms, target 150. -/
theorem seek_raises_without_media_player_witness :
    (sessionSeek sessNoAudio 100 150).outcome = SeekOutcome.raised ∧
    (sessionSeek sessNoAudio 100 150).workerSeeks =
      [max 0 (min 150 (sessNoAudio.frameCount - 1))] ∧
    (sessionSeek sessNoAudio 100 150).state = sessNoAudio :=
  seek_raises_without_media_player sessNoAudio 100 150 rfl
    (by norm_num [sessNoAudio, SEEK_COOLDOWN])

/-! ### Capture error rate limiting (C9) -/

/-- `error_cooldown` of `ScreenCaptureWorker` (seconds). -/
def ERROR_COOLDOWN : ℚ := 1

/-- The rate-limiter state of one capture session: `last_error_time`
and the timestamps of the error events emitted so far. -/
structure ErrLimiter where
  lastErrorTime : ℚ
  emitted : List ℚ
deriving DecidableEq

/-- `ScreenCaptureWorker.emit_error`: emit and stamp only when at least
`error_cooldown` has passed since the last stamped emission. -/
def emitError (s : ErrLimiter) (t : ℚ) : ErrLimiter :=
  if ERROR_COOLDOWN ≤ t - s.lastErrorTime then
    ⟨t, s.emitted ++ [t]⟩
  else s

/-- The direct `error_occurred.emit` on the failure path of
`capture_monitor_loop`, which bypasses `emit_error` and neither
consults nor stamps `last_error_time`. -/
def directEmit (s : ErrLimiter) (t : ℚ) : ErrLimiter :=
  { s with emitted := s.emitted ++ [t] }

/-- Fresh limiter state from `__init__`: `last_error_time = 0`. -/
def initLimiter : ErrLimiter := ⟨0, []⟩

/-- A run of `emit_error` calls at the given times. -/
def runEmits (s : ErrLimiter) (ts : List ℚ) : ErrLimiter :=
  ts.foldl emitError s

/-- C9 counterexample: one session emits two error events half a second
apart — the monitor-capture failure path emits directly at t = 1000
(bypassing the limiter), and `emit_error` at t = 1000.5 still passes
its cooldown check because the direct emission never stamped
`last_error_time`. -/
theorem error_rate_limit_counterexample :
    (emitError (directEmit initLimiter 1000) (1000 + 1/2)).emitted =
      [1000, 1000 + 1/2] ∧
    (1000 + 1/2 : ℚ) - 1000 < ERROR_COOLDOWN := by
  constructor
  · unfold emitError directEmit initLimiter
    rw [if_pos (by norm_num [ERROR_COOLDOWN])]
    simp
  · norm_num [ERROR_COOLDOWN]

/-- Invariant of the limiter: emitted timestamps are pairwise at least
the cooldown apart, and all of them precede `last_error_time`. -/
def LimInv (s : ErrLimiter) : Prop :=
  s.emitted.Pairwise (fun a b => a + ERROR_COOLDOWN ≤ b) ∧
  ∀ x ∈ s.emitted, x ≤ s.lastErrorTime

theorem LimInv.onEmit {s : ErrLimiter} (h : LimInv s) (t : ℚ) :
    LimInv (emitError s t) := by
  unfold emitError
  by_cases hc : ERROR_COOLDOWN ≤ t - s.lastErrorTime
  · rw [if_pos hc]
    obtain ⟨hpw, hle⟩ := h
    constructor
    · rw [List.pairwise_append]
      refine ⟨hpw, List.pairwise_singleton _ _, ?_⟩
      intro a ha b hb
      have hbt : b = t := by simpa using hb
      subst hbt
      have := hle a ha
      linarith
    · intro x hx
      rcases List.mem_append.1 hx with hx | hx
      · have h0 : (0 : ℚ) ≤ ERROR_COOLDOWN := by norm_num [ERROR_COOLDOWN]
        have := hle x hx
        linarith
      · have hxt : x = t := by simpa using hx
        exact le_of_eq hxt
  · rw [if_neg hc]
    exact h

theorem LimInv.onRunEmits (ts : List ℚ) {s : ErrLimiter} (h : LimInv s) :
    LimInv (runEmits s ts) := by
  induction ts generalizing s with
  | nil => exact h
  | cons t ts ih => exact ih (LimInv.onEmit h t)

/-- C9 (amended): error notifications routed through `emit_error` are
rate-limited — in any run of `emit_error` calls on a fresh session, any
two emitted events are at least the 1-second cooldown apart; but the
monitor-capture loop's failure path emits directly without the
limiter, so a session can still produce two events closer than the
cooldown. -/
theorem error_rate_limit (ts : List ℚ) :
    (runEmits initLimiter ts).emitted.Pairwise
      (fun a b => a + ERROR_COOLDOWN ≤ b) :=
  (LimInv.onRunEmits ts
    ⟨List.Pairwise.nil, fun x hx => absurd hx (List.not_mem_nil x)⟩).1

/-! ### Window-capture resource lifecycle (C1) -/

/-- The four native resources of one `capture_window_frame` attempt, in
acquisition order: the window device context (`GetWindowDC`), the MFC
context wrapped around it (`CreateDCFromHandle`), the compatible memory
context (`CreateCompatibleDC`), and the off-screen bitmap
(`CreateBitmap` / `CreateCompatibleBitmap`). -/
inductive Res where
  | hwndDC
  | mfcDC
  | saveDC
  | saveBitMap
deriving DecidableEq

/-- How a `capture_window_frame` call ends. -/
inductive CaptureOutcome where
  | returnedPixmap
  | returnedNone
  | raised
deriving DecidableEq

/-- Trace of one capture attempt: the resources acquired and the
resources released, each in order, and how the call ended. -/
structure AttemptTrace where
  acquired : List Res
  released : List Res
  outcome : CaptureOutcome
deriving DecidableEq

/-- The `try` part of `capture_window_frame`: the early `return None`
for degenerate window sizes, then the four acquisitions in order (each
native call can raise, per the oracle `acqOk`), then `PrintWindow` and
the conversion/return. -/
def tryCaptureBody (width height : Int) (acqOk : Res → Bool)
    (printOk : Bool) : List Res × CaptureOutcome :=
  if width ≤ 0 ∨ height ≤ 0 then ([], CaptureOutcome.returnedNone)
  else if acqOk Res.hwndDC = false then ([], CaptureOutcome.raised)
  else if acqOk Res.mfcDC = false then ([Res.hwndDC], CaptureOutcome.raised)
  else if acqOk Res.saveDC = false then
    ([Res.hwndDC, Res.mfcDC], CaptureOutcome.raised)
  else if acqOk Res.saveBitMap = false then
    ([Res.hwndDC, Res.mfcDC, Res.saveDC], CaptureOutcome.raised)
  else ([Res.hwndDC, Res.mfcDC, Res.saveDC, Res.saveBitMap],
        if printOk then CaptureOutcome.returnedPixmap
        else CaptureOutcome.returnedNone)

/-- The release statements of the `finally` block in source order:
`saveDC.DeleteDC()`, `mfcDC.DeleteDC()`, `ReleaseDC(hwnd, hwndDC)`,
`DeleteObject(saveBitMap.GetHandle())`. -/
def finallyOrder : List Res := [Res.saveDC, Res.mfcDC, Res.hwndDC, Res.saveBitMap]

/-- Run the `finally` block: each statement releases its resource when
the corresponding local variable is bound (the resource was acquired);
referencing an unbound local raises `UnboundLocalError`, aborting the
rest of the block.  Returns the releases performed and whether the
block raised. -/
def runFinally (bound : List Res) : List Res → List Res × Bool
  | [] => ([], false)
  | r :: rest =>
    if r ∈ bound then
      let p := runFinally bound rest
      (r :: p.1, p.2)
    else ([], true)

/-- `ScreenCaptureWorker.capture_window_frame` as a resource trace: run
the `try` body, then the `finally` block over the locals the body
bound; an exception raised in `finally` replaces the body's outcome. -/
def captureWindowFrame (width height : Int) (acqOk : Res → Bool)
    (printOk : Bool) : AttemptTrace :=
  let body := tryCaptureBody width height acqOk printOk
  let fin := runFinally body.1 finallyOrder
  ⟨body.1, fin.1, if fin.2 then CaptureOutcome.raised else body.2⟩

/-- Every native call succeeds. -/
def acqAllOk : Res → Bool := fun _ => true

/-- `GetWindowDC` succeeds but `CreateDCFromHandle` raises. -/
def acqFailMfc : Res → Bool := fun r => decide (r ≠ Res.mfcDC)

/-- C1: the resource-balance contract fails in the code.  On a 100x100
window attempt where `GetWindowDC` succeeds but `CreateDCFromHandle`
raises, the `finally` block trips over the unbound local `saveDC`,
raises `UnboundLocalError` and releases nothing — the acquired window
device context leaks (1 acquisition, 0 releases).  Even a fully
successful attempt releases in the order saveDC, mfcDC, hwndDC, bitmap,
which is not the strict reverse of the acquisition order (the bitmap
would have to be released first). -/
theorem capture_resource_leak :
    (captureWindowFrame 100 100 acqFailMfc true).acquired = [Res.hwndDC] ∧
    (captureWindowFrame 100 100 acqFailMfc true).released = [] ∧
    (captureWindowFrame 100 100 acqFailMfc true).outcome =
      CaptureOutcome.raised ∧
    (captureWindowFrame 100 100 acqAllOk true).released ≠
      (captureWindowFrame 100 100 acqAllOk true).acquired.reverse ∧
    (captureWindowFrame 100 100 acqAllOk true).released.length =
      (captureWindowFrame 100 100 acqAllOk true).acquired.length := by
  decide

end Jalinga
